import Mathlib

/-!
Shallow embedding of the TTL-based fetch cache in
`src/js/performance-optimizer.js` (class `PerformanceOptimizer`):
the fetch wrapper installed by `implementResourceCaching`, together with
`shouldCache`, `getCacheTTL`, `isCacheValid` and the stale sweep in
`optimizeMemory`.

Timestamps and durations are milliseconds, modelled as `Int` (JS numbers
are integral here).  The cache `Map` is modelled as an association list
with `Map.get`/`Map.set`/`Map.delete` semantics.  Request options are
modelled as JS values serialized by `JSON.stringify`: an ordered field
list (JS objects preserve insertion order), with a `bigint` constructor
standing for the values on which `JSON.stringify` throws a `TypeError`.
-/

namespace PerfOpt

mutual

/-- A JS value passed as the `options` argument of the wrapped `fetch`,
as seen by `JSON.stringify`.  Object fields are an ordered list, matching
JS object insertion order.  `bigint` models the values on which
`JSON.stringify` throws (`BigInt`, circular structures). -/
inductive JsonValue where
  | str (s : String)
  | num (n : Int)
  | boolean (b : Bool)
  | null
  | obj (fields : JsonFields)
  | arr (elems : JsonElems)
  | bigint (n : Int)

inductive JsonFields where
  | nil
  | cons (key : String) (value : JsonValue) (rest : JsonFields)

inductive JsonElems where
  | nil
  | cons (value : JsonValue) (rest : JsonElems)

end

/-- One character of a JSON string literal, escaped as `JSON.stringify`
escapes it: quote and backslash get a backslash escape, the named control
characters get their short escapes, other control characters get
`\u00XX`. -/
def escapeJsonChar (c : Char) : String :=
  if c = Char.ofNat 34 then "\\\""
  else if c = Char.ofNat 92 then "\\\\"
  else if c = Char.ofNat 8 then "\\b"
  else if c = Char.ofNat 9 then "\\t"
  else if c = Char.ofNat 10 then "\\n"
  else if c = Char.ofNat 12 then "\\f"
  else if c = Char.ofNat 13 then "\\r"
  else if c.toNat < 32 then
    let hexDigit : Nat → String := fun n =>
      if n < 10 then toString n
      else String.singleton (Char.ofNat (97 + n - 10))
    "\\u00" ++ hexDigit (c.toNat / 16) ++ hexDigit (c.toNat % 16)
  else String.singleton c

/-- A JSON string literal: the quoted, escaped form `JSON.stringify`
produces for a string. -/
def jsonQuote (s : String) : String :=
  "\"" ++ String.join (s.toList.map escapeJsonChar) ++ "\""

mutual

/-- `JSON.stringify`.  Returns `none` when stringification throws
(a `bigint` anywhere in the value). -/
def serializeVal : JsonValue → Option String
  | .str s => some (jsonQuote s)
  | .num n => some (toString n)
  | .boolean b => some (cond b "true" "false")
  | .null => some "null"
  | .obj fields =>
    match serializeFieldList fields with
    | some parts => some ("\x7b" ++ String.intercalate "," parts ++ "\x7d")
    | none => none
  | .arr elems =>
    match serializeElemList elems with
    | some parts => some ("[" ++ String.intercalate "," parts ++ "]")
    | none => none
  | .bigint _ => none

def serializeFieldList : JsonFields → Option (List String)
  | .nil => some []
  | .cons k v rest =>
    match serializeVal v, serializeFieldList rest with
    | some sv, some srest => some ((jsonQuote k ++ ":" ++ sv) :: srest)
    | _, _ => none

def serializeElemList : JsonElems → Option (List String)
  | .nil => some []
  | .cons v rest =>
    match serializeVal v, serializeElemList rest with
    | some sv, some srest => some (sv :: srest)
    | _, _ => none

end

/-- The ordered field list of a JSON object, as a plain list of
key/value pairs. -/
def JsonFields.toList : JsonFields → List (String × JsonValue)
  | .nil => []
  | .cons k v rest => (k, v) :: rest.toList

/-- `a.includes(b)` on JS strings: substring containment. -/
def containsStr (s pat : String) : Bool :=
  decide (pat.toList <:+: s.toList)

/-- An HTTP response value (the observable part of a `Response`
snapshot: status and body).  `clone()` is the identity in this value
model. -/
structure Response where
  status : Int
  body : String
deriving DecidableEq

/-- `response.ok`: status in the range 200–299. -/
def Response.ok (r : Response) : Bool :=
  decide (200 ≤ r.status) && decide (r.status ≤ 299)

/-- An entry of `this.cache`: the stored response snapshot, the
insertion timestamp, and the TTL assigned at insertion. -/
structure CacheEntry where
  response : Response
  timestamp : Int
  ttl : Int
deriving DecidableEq

/-- `this.cache`, a `Map` from key strings to entries, as an association
list (first binding for a key wins; `cacheSet` keeps at most one binding
per key). -/
abbrev Cache := List (String × CacheEntry)

/-- `Map.prototype.get`. -/
def cacheGet (c : Cache) (k : String) : Option CacheEntry :=
  match c with
  | [] => none
  | (k', v) :: rest => if k' = k then some v else cacheGet rest k

/-- `Map.prototype.has`. -/
def cacheHas (c : Cache) (k : String) : Bool :=
  (cacheGet c k).isSome

/-- `Map.prototype.set`: overwrite the binding for `k` if present, else
append. -/
def cacheSet (c : Cache) (k : String) (v : CacheEntry) : Cache :=
  match c with
  | [] => [(k, v)]
  | (k', v') :: rest =>
    if k' = k then (k, v) :: rest else (k', v') :: cacheSet rest k v

/-- The transport-level failure the underlying `fetch` rejects with. -/
structure TransportError where
  message : String
deriving DecidableEq

/-- A failure surfaced by the wrapped fetch: either `JSON.stringify`
threw while computing the cache key, or the transport failed and no
entry was available. -/
inductive FetchFailure where
  | serializationFailure
  | networkFailure (e : TransportError)
deriving DecidableEq

/-- `shouldCache(url)` from the source: cacheable iff the identifier
contains a cacheable extension, or contains `weather`, or contains
`api`. -/
def cacheableExtensions : List String :=
  [".json", ".kml", ".jpg", ".jpeg", ".png", ".css", ".js"]

def shouldCache (url : String) : Bool :=
  cacheableExtensions.any (fun ext => containsStr url ext) ||
    containsStr url "weather" || containsStr url "api"

/-- `getCacheTTL(url)` from the source, in milliseconds. -/
def getCacheTTL (url : String) : Int :=
  if containsStr url "weather" then 10 * 60 * 1000
  else if containsStr url ".kml" then 60 * 60 * 1000
  else if containsStr url ".jpg" || containsStr url ".png" then 24 * 60 * 60 * 1000
  else 30 * 60 * 1000

/-- `isCacheValid(cacheKey)` from the source:
`cached && (Date.now() - cached.timestamp) < cached.ttl`, with
`Date.now()` passed in as `now`. -/
def isCacheValid (cache : Cache) (cacheKey : String) (now : Int) : Bool :=
  match cacheGet cache cacheKey with
  | some cached => decide (now - cached.timestamp < cached.ttl)
  | none => false

/-- The key computed by the wrapper:
`` `${url}_${JSON.stringify(options)}` `` with the serialized options
already in hand. -/
def cacheKey (url : String) (serializedOptions : String) : String :=
  url ++ "_" ++ serializedOptions

/-- The observable outcome of one call of the wrapped fetch: the settled
promise, the cache afterwards, and whether `originalFetch` was
invoked. -/
structure FetchResult where
  result : Except FetchFailure Response
  cache : Cache
  networkCalled : Bool

/-- The fetch wrapper installed by `implementResourceCaching`.  The
underlying `originalFetch(url, options)` call is modelled by its
outcome `transport`; `Date.now()` by `now`.

Decision tree of the source: compute the key (a `JSON.stringify` throw
rejects before any cache or network access); on a fresh entry
(`cache.has && isCacheValid`), return the stored snapshot without
calling the network; otherwise await the transport — on transport
success store the entry iff `response.ok && shouldCache(url)` and return
the live response; on transport failure return any existing entry for
the key, else rethrow the transport error. -/
def fetchWithCache (cache : Cache) (transport : Except TransportError Response)
    (now : Int) (url : String) (options : JsonValue) : FetchResult :=
  match serializeVal options with
  | none => ⟨.error .serializationFailure, cache, false⟩
  | some s =>
    match cacheGet cache (cacheKey url s), isCacheValid cache (cacheKey url s) now with
    | some cached, true => ⟨.ok cached.response, cache, false⟩
    | _, _ =>
      match transport with
      | .ok response =>
        if response.ok && shouldCache url then
          ⟨.ok response,
            cacheSet cache (cacheKey url s) ⟨response, now, getCacheTTL url⟩, true⟩
        else
          ⟨.ok response, cache, true⟩
      | .error e =>
        match cacheGet cache (cacheKey url s) with
        | some cached => ⟨.ok cached.response, cache, true⟩
        | none => ⟨.error (.networkFailure e), cache, true⟩

/-- The cache sweep in `optimizeMemory`: delete every entry with
`now - value.timestamp > value.ttl`. -/
def optimizeMemory (cache : Cache) (now : Int) : Cache :=
  cache.filter (fun kv => ! decide (now - kv.2.timestamp > kv.2.ttl))

/-- One operation on the shared cache: a call of the wrapped fetch, or
the stale sweep of `optimizeMemory`. -/
inductive CacheOp where
  | fetchOp (transport : Except TransportError Response) (now : Int)
      (url : String) (options : JsonValue)
  | sweepOp (now : Int)

/-- The cache after one operation. -/
def runOp (cache : Cache) : CacheOp → Cache
  | .fetchOp transport now url options =>
    (fetchWithCache cache transport now url options).cache
  | .sweepOp now => optimizeMemory cache now

/-- The cache after a sequence of operations. -/
def runOps (cache : Cache) (ops : List CacheOp) : Cache :=
  ops.foldl runOp cache

/-- The fetches in an operation sequence that touch only the resource
`url` (sweeps allowed). -/
def opOnUrl (url : String) : CacheOp → Prop
  | .fetchOp _ _ u _ => u = url
  | .sweepOp _ => True

/-- All marker strings whose containment makes a resource cacheable:
the cacheable extensions plus the semantic markers `weather` and
`api`. -/
def cacheMarkers : List String :=
  cacheableExtensions ++ ["weather", "api"]

/-- Image-format classification, following the spec's words: the image
members of the cacheable extension set (`.jpg`, `.jpeg`, `.png`).  Used
only to compare the spec's TTL table with `getCacheTTL`. -/
def specImageFormat (url : String) : Bool :=
  containsStr url ".jpg" || containsStr url ".jpeg" || containsStr url ".png"

/-- Request options written as `{ method: "GET", cache: "no-store" }`. -/
def optsA : JsonFields :=
  .cons "method" (.str "GET") (.cons "cache" (.str "no-store") .nil)

/-- The same option fields written in the opposite order,
`{ cache: "no-store", method: "GET" }`. -/
def optsB : JsonFields :=
  .cons "cache" (.str "no-store") (.cons "method" (.str "GET") .nil)

/-! ### Basic lemmas about the cache map and the fetch wrapper -/

theorem cacheGet_cacheSet (c : Cache) (k : String) (v : CacheEntry) (k' : String) :
    cacheGet (cacheSet c k v) k' = if k = k' then some v else cacheGet c k' := by
  induction c with
  | nil => by_cases h : k = k' <;> simp [cacheSet, cacheGet, h]
  | cons hd tl ih =>
    obtain ⟨hk, hv⟩ := hd
    by_cases h1 : hk = k <;> by_cases h2 : k = k' <;> by_cases h3 : hk = k' <;>
      simp_all [cacheSet, cacheGet]

theorem isCacheValid_none {cache : Cache} {k : String} {now : Int}
    (h : cacheGet cache k = none) : isCacheValid cache k now = false := by
  simp [isCacheValid, h]

theorem isCacheValid_some {cache : Cache} {k : String} {now : Int} {e : CacheEntry}
    (h : cacheGet cache k = some e) :
    isCacheValid cache k now = decide (now - e.timestamp < e.ttl) := by
  simp [isCacheValid, h]

theorem fetchWithCache_serFail (cache : Cache)
    (transport : Except TransportError Response) (now : Int) (url : String)
    (options : JsonValue) (h : serializeVal options = none) :
    fetchWithCache cache transport now url options =
      ⟨.error .serializationFailure, cache, false⟩ := by
  simp [fetchWithCache, h]

theorem fetchWithCache_hit (cache : Cache)
    (transport : Except TransportError Response) (now : Int) (url : String)
    (options : JsonValue) (s : String) (cached : CacheEntry)
    (hser : serializeVal options = some s)
    (hget : cacheGet cache (cacheKey url s) = some cached)
    (hfresh : now - cached.timestamp < cached.ttl) :
    fetchWithCache cache transport now url options =
      ⟨.ok cached.response, cache, false⟩ := by
  simp [fetchWithCache, hser, hget, isCacheValid_some hget, hfresh]

theorem fetchWithCache_miss (cache : Cache)
    (transport : Except TransportError Response) (now : Int) (url : String)
    (options : JsonValue) (s : String)
    (hser : serializeVal options = some s)
    (hmiss : isCacheValid cache (cacheKey url s) now = false) :
    fetchWithCache cache transport now url options =
      match transport with
      | .ok response =>
        if response.ok && shouldCache url then
          ⟨.ok response,
            cacheSet cache (cacheKey url s) ⟨response, now, getCacheTTL url⟩, true⟩
        else ⟨.ok response, cache, true⟩
      | .error e =>
        match cacheGet cache (cacheKey url s) with
        | some cached => ⟨.ok cached.response, cache, true⟩
        | none => ⟨.error (.networkFailure e), cache, true⟩ := by
  simp only [fetchWithCache, hser]
  rw [hmiss]
  cases hget : cacheGet cache (cacheKey url s) <;> rfl

theorem isCacheValid_true {cache : Cache} {k : String} {now : Int}
    (h : isCacheValid cache k now = true) :
    ∃ e, cacheGet cache k = some e ∧ now - e.timestamp < e.ttl := by
  revert h
  cases hget : cacheGet cache k with
  | none => simp [isCacheValid, hget]
  | some e =>
    intro h
    rw [isCacheValid_some hget] at h
    exact ⟨e, rfl, of_decide_eq_true h⟩

theorem fetchWithCache_nonCacheable_cache (url : String)
    (h : shouldCache url = false) (cache : Cache)
    (transport : Except TransportError Response) (now : Int)
    (options : JsonValue) :
    (fetchWithCache cache transport now url options).cache = cache := by
  cases hser : serializeVal options with
  | none => rw [fetchWithCache_serFail _ _ _ _ _ hser]
  | some s =>
    cases hval : isCacheValid cache (cacheKey url s) now with
    | true =>
      obtain ⟨e, hget, hfresh⟩ := isCacheValid_true hval
      rw [fetchWithCache_hit _ _ _ _ _ _ _ hser hget hfresh]
    | false =>
      rw [fetchWithCache_miss _ _ _ _ _ _ hser hval]
      cases transport with
      | ok r =>
        have hco : (r.ok && shouldCache url) = false := by simp [h]
        simp [hco]
      | error e => cases hget : cacheGet cache (cacheKey url s) <;> simp [hget]

theorem fetchWithCache_cache_shape (cache : Cache)
    (transport : Except TransportError Response) (now : Int) (url : String)
    (options : JsonValue) :
    (fetchWithCache cache transport now url options).cache = cache ∨
    ∃ s entry, serializeVal options = some s ∧
      (fetchWithCache cache transport now url options).cache =
        cacheSet cache (cacheKey url s) entry := by
  cases hser : serializeVal options with
  | none => left; rw [fetchWithCache_serFail _ _ _ _ _ hser]
  | some s =>
    cases hval : isCacheValid cache (cacheKey url s) now with
    | true =>
      obtain ⟨e, hget, hfresh⟩ := isCacheValid_true hval
      left
      rw [fetchWithCache_hit _ _ _ _ _ _ _ hser hget hfresh]
    | false =>
      rw [fetchWithCache_miss _ _ _ _ _ _ hser hval]
      cases transport with
      | ok r =>
        by_cases hco : (r.ok && shouldCache url) = true
        · right
          exact ⟨s, ⟨r, now, getCacheTTL url⟩, rfl, by simp [hco]⟩
        · left
          simp [hco]
      | error e => cases hget : cacheGet cache (cacheKey url s) <;> simp [hget]

/-! ### Claims -/

/-- C1: the transport is invoked iff no fresh entry exists for the
computed key (fresh = `now - storedAt < timeToLive`); on a fresh entry
the stored snapshot is returned, the cache is unchanged, and no network
call is made. -/
theorem transport_iff_no_fresh_entry (cache : Cache)
    (transport : Except TransportError Response) (now : Int) (url : String)
    (options : JsonValue) (s : String) (hser : serializeVal options = some s) :
    ((fetchWithCache cache transport now url options).networkCalled = false ↔
      ∃ e, cacheGet cache (cacheKey url s) = some e ∧ now - e.timestamp < e.ttl) ∧
    ∀ e, cacheGet cache (cacheKey url s) = some e → now - e.timestamp < e.ttl →
      fetchWithCache cache transport now url options =
        ⟨.ok e.response, cache, false⟩ := by
  constructor
  · constructor
    · intro hnc
      by_contra hno
      push_neg at hno
      have hmiss : isCacheValid cache (cacheKey url s) now = false := by
        cases hget : cacheGet cache (cacheKey url s) with
        | none => exact isCacheValid_none hget
        | some e =>
          rw [isCacheValid_some hget]
          exact decide_eq_false (not_lt.mpr (hno e hget))
      rw [fetchWithCache_miss cache transport now url options s hser hmiss] at hnc
      split at hnc <;> split at hnc <;> simp at hnc
    · rintro ⟨e, hget, hfresh⟩
      rw [fetchWithCache_hit cache transport now url options s e hser hget hfresh]
  · intro e hget hfresh
    exact fetchWithCache_hit cache transport now url options s e hser hget hfresh

theorem transport_iff_no_fresh_entry_witness :
    serializeVal (.obj .nil) = some "\x7b\x7d" ∧
    fetchWithCache [(cacheKey "a.json" "\x7b\x7d", ⟨⟨200, "body"⟩, 0, 1800000⟩)]
        (.ok ⟨200, "live"⟩) 5 "a.json" (.obj .nil) =
      ⟨.ok ⟨200, "body"⟩,
        [(cacheKey "a.json" "\x7b\x7d", ⟨⟨200, "body"⟩, 0, 1800000⟩)], false⟩ :=
  ⟨rfl, (transport_iff_no_fresh_entry
      [(cacheKey "a.json" "\x7b\x7d", ⟨⟨200, "body"⟩, 0, 1800000⟩)]
      (.ok ⟨200, "live"⟩) 5 "a.json" (.obj .nil) "\x7b\x7d" rfl).2
    ⟨⟨200, "body"⟩, 0, 1800000⟩ rfl (by decide)⟩

/-- C2: when the transport rejects, an existing entry (fresh or stale)
is returned as a degraded hit with the cache unchanged; with no entry
for the key the transport error is propagated unchanged. -/
theorem network_failure_fallback (cache : Cache) (e : TransportError)
    (now : Int) (url : String) (options : JsonValue) (s : String)
    (hser : serializeVal options = some s)
    (hnofresh : isCacheValid cache (cacheKey url s) now = false) :
    (∀ cached, cacheGet cache (cacheKey url s) = some cached →
      fetchWithCache cache (.error e) now url options =
        ⟨.ok cached.response, cache, true⟩) ∧
    (cacheGet cache (cacheKey url s) = none →
      fetchWithCache cache (.error e) now url options =
        ⟨.error (.networkFailure e), cache, true⟩) := by
  have hm := fetchWithCache_miss cache (Except.error e) now url options s hser hnofresh
  constructor
  · intro cached hget
    rw [hm]
    simp [hget]
  · intro hget
    rw [hm]
    simp [hget]

theorem network_failure_fallback_witness :
    serializeVal (.obj .nil) = some "\x7b\x7d" ∧
    isCacheValid [(cacheKey "trail/map.kml" "\x7b\x7d", ⟨⟨200, "kml"⟩, 0, 3600000⟩)]
        (cacheKey "trail/map.kml" "\x7b\x7d") 7200000 = false ∧
    fetchWithCache [(cacheKey "trail/map.kml" "\x7b\x7d", ⟨⟨200, "kml"⟩, 0, 3600000⟩)]
        (.error ⟨"offline"⟩) 7200000 "trail/map.kml" (.obj .nil) =
      ⟨.ok ⟨200, "kml"⟩,
        [(cacheKey "trail/map.kml" "\x7b\x7d", ⟨⟨200, "kml"⟩, 0, 3600000⟩)], true⟩ :=
  ⟨rfl, by decide,
    (network_failure_fallback
      [(cacheKey "trail/map.kml" "\x7b\x7d", ⟨⟨200, "kml"⟩, 0, 3600000⟩)]
      ⟨"offline"⟩ 7200000 "trail/map.kml" (.obj .nil) "\x7b\x7d"
      rfl (by decide)).1 _ rfl⟩

/-- C5: unserializable options fail with the serialization error before
any cache lookup or network call; the error is surfaced even when an
entry for the resource exists, and the cache is untouched. -/
theorem serialization_failure_surfaced (cache : Cache)
    (transport : Except TransportError Response) (now : Int) (url : String)
    (options : JsonValue) (h : serializeVal options = none) :
    fetchWithCache cache transport now url options =
      ⟨.error .serializationFailure, cache, false⟩ := by
  simp [fetchWithCache, h]

theorem serialization_failure_surfaced_witness :
    serializeVal (.bigint 1) = none ∧
    fetchWithCache [(cacheKey "a.json" "x", ⟨⟨200, "b"⟩, 0, 1800000⟩)]
        (.ok ⟨200, "live"⟩) 0 "a.json" (.bigint 1) =
      ⟨.error .serializationFailure,
        [(cacheKey "a.json" "x", ⟨⟨200, "b"⟩, 0, 1800000⟩)], false⟩ :=
  ⟨rfl, serialization_failure_surfaced _ _ _ _ _ rfl⟩

/-- C3 counterexample: `a.json` is cacheable and the transport completes
with an HTTP 500 response, yet no entry is stored — the source caches
only when `response.ok` holds, so HTTP error statuses do not count as
success for caching purposes. -/
theorem http_error_not_cached_counterexample :
    shouldCache "a.json" = true ∧
    Response.ok ⟨500, "oops"⟩ = false ∧
    fetchWithCache [] (.ok ⟨500, "oops"⟩) 0 "a.json" (.obj .nil) =
      ⟨.ok ⟨500, "oops"⟩, [], true⟩ :=
  ⟨by decide, by decide, rfl⟩

/-- C3 (amended): on transport-level success the live response is always
returned and the transport is invoked; an entry with `storedAt = now`
and the policy TTL is stored iff `response.ok && shouldCache url` — an
HTTP error status (`ok = false`) stores nothing. -/
theorem success_stores_iff_ok_and_cacheable (cache : Cache) (now : Int)
    (url : String) (options : JsonValue) (s : String) (response : Response)
    (hser : serializeVal options = some s)
    (hmiss : isCacheValid cache (cacheKey url s) now = false) :
    (fetchWithCache cache (.ok response) now url options).result = .ok response ∧
    (fetchWithCache cache (.ok response) now url options).networkCalled = true ∧
    ((response.ok && shouldCache url) = true →
      (fetchWithCache cache (.ok response) now url options).cache =
        cacheSet cache (cacheKey url s) ⟨response, now, getCacheTTL url⟩) ∧
    ((response.ok && shouldCache url) = false →
      (fetchWithCache cache (.ok response) now url options).cache = cache) := by
  rw [fetchWithCache_miss cache (Except.ok response) now url options s hser hmiss]
  by_cases hco : (response.ok && shouldCache url) = true <;> simp [hco]

theorem success_stores_iff_ok_and_cacheable_witness :
    serializeVal (.obj .nil) = some "\x7b\x7d" ∧
    isCacheValid [] (cacheKey "weather/today.json" "\x7b\x7d") 0 = false ∧
    (fetchWithCache [] (.ok ⟨200, "temp72"⟩) 0 "weather/today.json"
        (.obj .nil)).cache =
      cacheSet [] (cacheKey "weather/today.json" "\x7b\x7d")
        ⟨⟨200, "temp72"⟩, 0, getCacheTTL "weather/today.json"⟩ :=
  ⟨rfl, by decide,
    (success_stores_iff_ok_and_cacheable [] 0 "weather/today.json" (.obj .nil)
      "\x7b\x7d" ⟨200, "temp72"⟩ rfl (by decide)).2.2.1 (by decide)⟩

/-- C4 counterexample: `photo.jpeg` is an image-format resource (it is
cacheable through the `.jpeg` extension) matching no earlier policy
tier, yet `getCacheTTL` gives it the 30-minute default rather than 24
hours — the image tier tests only `.jpg` and `.png`. -/
theorem image_ttl_counterexample :
    specImageFormat "photo.jpeg" = true ∧
    shouldCache "photo.jpeg" = true ∧
    containsStr "photo.jpeg" "weather" = false ∧
    containsStr "photo.jpeg" ".kml" = false ∧
    getCacheTTL "photo.jpeg" = 30 * 60 * 1000 ∧
    (30 * 60 * 1000 : Int) ≠ 24 * 60 * 60 * 1000 :=
  ⟨by decide, by decide, by decide, by decide, by decide, by decide⟩

/-- C4 (amended): the TTL policy is first-match-wins — weather-marked
resources get 10 minutes; otherwise `.kml` resources get 60 minutes;
otherwise resources containing `.jpg` or `.png` get 24 hours (`.jpeg`
identifiers without `.jpg` fall through); any other resource gets the
30-minute default. -/
theorem ttl_policy_first_match (url : String) :
    (containsStr url "weather" = true → getCacheTTL url = 10 * 60 * 1000) ∧
    (containsStr url "weather" = false → containsStr url ".kml" = true →
      getCacheTTL url = 60 * 60 * 1000) ∧
    (containsStr url "weather" = false → containsStr url ".kml" = false →
      (containsStr url ".jpg" || containsStr url ".png") = true →
      getCacheTTL url = 24 * 60 * 60 * 1000) ∧
    (containsStr url "weather" = false → containsStr url ".kml" = false →
      (containsStr url ".jpg" || containsStr url ".png") = false →
      getCacheTTL url = 30 * 60 * 1000) := by
  refine ⟨fun h1 => ?_, fun h1 h2 => ?_, fun h1 h2 h3 => ?_,
    fun h1 h2 h3 => ?_⟩ <;> simp [getCacheTTL, h1] <;> simp_all

theorem ttl_policy_first_match_witness :
    getCacheTTL "api/weather/now.json" = 10 * 60 * 1000 ∧
    getCacheTTL "trail/map.kml" = 60 * 60 * 1000 ∧
    getCacheTTL "img/photo.jpg" = 24 * 60 * 60 * 1000 ∧
    getCacheTTL "data/info.json" = 30 * 60 * 1000 :=
  ⟨(ttl_policy_first_match "api/weather/now.json").1 (by decide),
    (ttl_policy_first_match "trail/map.kml").2.1 (by decide) (by decide),
    (ttl_policy_first_match "img/photo.jpg").2.2.1 (by decide) (by decide)
      (by decide),
    (ttl_policy_first_match "data/info.json").2.2.2 (by decide) (by decide)
      (by decide)⟩

/-- C6 counterexample: the two option objects hold the same fields —
their field lists are permutations of each other — but `JSON.stringify`
serializes them differently, so the two calls compute different keys
and the entry stored under the first key is missed by a call written in
the other order (the second call still invokes the transport). -/
theorem stringify_order_counterexample :
    (JsonFields.toList optsA).Perm (JsonFields.toList optsB) ∧
    serializeVal (.obj optsA) ≠ serializeVal (.obj optsB) ∧
    (fetchWithCache
        (fetchWithCache [] (.ok ⟨200, "body"⟩) 0 "a.json" (.obj optsA)).cache
        (.ok ⟨200, "body2"⟩) 1 "a.json" (.obj optsB)).networkCalled = true :=
  ⟨List.Perm.swap _ _ _, by decide, rfl⟩

/-- C6 (amended): serialization is `JSON.stringify` of the options
object and is sensitive to field insertion order; whenever two option
values serialize to the same string, both calls compute the same key
and behave identically — in particular a hit for one is a hit for the
other. -/
theorem equal_serialization_same_key (cache : Cache)
    (transport : Except TransportError Response) (now : Int) (url : String)
    (o1 o2 : JsonValue) (s : String)
    (h1 : serializeVal o1 = some s) (h2 : serializeVal o2 = some s) :
    fetchWithCache cache transport now url o1 =
      fetchWithCache cache transport now url o2 := by
  unfold fetchWithCache
  rw [h1, h2]

theorem equal_serialization_same_key_witness :
    serializeVal (.obj optsA) =
      some "\x7b\"method\":\"GET\",\"cache\":\"no-store\"\x7d" ∧
    fetchWithCache [] (.ok ⟨200, "b"⟩) 0 "a.json" (.obj optsA) =
      fetchWithCache [] (.ok ⟨200, "b"⟩) 0 "a.json" (.obj optsA) :=
  ⟨rfl, equal_serialization_same_key [] (.ok ⟨200, "b"⟩) 0 "a.json"
    (.obj optsA) (.obj optsA)
    "\x7b\"method\":\"GET\",\"cache\":\"no-store\"\x7d" rfl rfl⟩

/-- C7 counterexample: an entry whose age equals its TTL exactly
(`now - storedAt = timeToLive`, so `now - storedAt >= timeToLive`
holds and the entry is already stale for reads) survives the sweep —
the source deletes only when `now - timestamp > ttl` strictly. -/
theorem sweep_boundary_counterexample :
    (100 : Int) - 0 ≥ 100 ∧
    isCacheValid [("k", ⟨⟨200, "x"⟩, 0, 100⟩)] "k" 100 = false ∧
    optimizeMemory [("k", ⟨⟨200, "x"⟩, 0, 100⟩)] 100 =
      [("k", ⟨⟨200, "x"⟩, 0, 100⟩)] :=
  ⟨by decide, by decide, rfl⟩

/-- C7 (amended): the sweep removes exactly the entries with
`now - storedAt > timeToLive` (strict), keeping every entry with
`now - storedAt ≤ timeToLive` — including the boundary case
`now - storedAt = timeToLive`, which a per-read freshness check already
treats as stale. -/
theorem sweep_removes_strictly_stale (cache : Cache) (now : Int)
    (k : String) (e : CacheEntry) :
    (k, e) ∈ optimizeMemory cache now ↔
      (k, e) ∈ cache ∧ now - e.timestamp ≤ e.ttl := by
  simp [optimizeMemory, List.mem_filter, not_lt]

theorem sweep_removes_strictly_stale_witness :
    ("k", (⟨⟨200, "x"⟩, 0, 100⟩ : CacheEntry)) ∈
      optimizeMemory [("k", ⟨⟨200, "x"⟩, 0, 100⟩)] 100 :=
  (sweep_removes_strictly_stale [("k", ⟨⟨200, "x"⟩, 0, 100⟩)] 100 "k"
    ⟨⟨200, "x"⟩, 0, 100⟩).mpr ⟨by decide, by decide⟩

/-- C8: a resource with no cacheable marker is never stored: any single
call for it leaves the cache exactly as it was; any sequence of fetches
of it (sweeps allowed) started from the empty cache keeps the cache
empty; and on the empty cache every serializable call invokes the
transport and returns the live outcome unchanged — no HIT, no
fallback. -/
theorem nonCacheable_never_stored (url : String)
    (h : shouldCache url = false) :
    (∀ cache transport now options,
      (fetchWithCache cache transport now url options).cache = cache) ∧
    (∀ ops : List CacheOp, (∀ op ∈ ops, opOnUrl url op) →
      runOps [] ops = []) ∧
    (∀ transport now options s, serializeVal options = some s →
      (fetchWithCache [] transport now url options).networkCalled = true ∧
      (∀ resp, transport = .ok resp →
        (fetchWithCache [] transport now url options).result = .ok resp) ∧
      (∀ e, transport = .error e →
        (fetchWithCache [] transport now url options).result =
          .error (.networkFailure e))) := by
  refine ⟨fun cache transport now options =>
    fetchWithCache_nonCacheable_cache url h cache transport now options,
    ?_, ?_⟩
  · intro ops hops
    induction ops with
    | nil => rfl
    | cons op rest ih =>
      have hop := hops op (List.mem_cons_self op rest)
      have hrest : ∀ o ∈ rest, opOnUrl url o :=
        fun o ho => hops o (List.mem_cons_of_mem _ ho)
      show runOps (runOp [] op) rest = []
      have hstep : runOp [] op = [] := by
        cases op with
        | fetchOp t n u o =>
          have hu : u = url := hop
          subst hu
          exact fetchWithCache_nonCacheable_cache u h [] t n o
        | sweepOp n => rfl
      rw [hstep]
      exact ih hrest
  · intro transport now options s hser
    have hval : isCacheValid [] (cacheKey url s) now = false :=
      isCacheValid_none rfl
    have hm := fetchWithCache_miss [] transport now url options s hser hval
    refine ⟨?_, ?_, ?_⟩
    · rw [hm]
      cases transport with
      | ok r => by_cases hco : (r.ok && shouldCache url) = true <;> simp [hco]
      | error e => simp [cacheGet]
    · intro resp htr
      subst htr
      rw [hm]
      have hco : (resp.ok && shouldCache url) = false := by simp [h]
      simp [hco]
    · intro e htr
      subst htr
      rw [hm]
      simp [cacheGet]

theorem nonCacheable_never_stored_witness :
    shouldCache "trail/route" = false ∧
    runOps [] [.fetchOp (.ok ⟨200, "x"⟩) 0 "trail/route" (.obj .nil),
      .fetchOp (.ok ⟨200, "y"⟩) 5 "trail/route" (.obj .nil)] = [] ∧
    (fetchWithCache [] (.ok ⟨200, "x"⟩) 0 "trail/route"
      (.obj .nil)).networkCalled = true :=
  ⟨by decide,
    (nonCacheable_never_stored "trail/route" (by decide)).2.1 _ (by
      intro op hop
      simp only [List.mem_cons, List.not_mem_nil, or_false] at hop
      rcases hop with h1 | h1 <;> subst h1 <;> simp [opOnUrl]),
    ((nonCacheable_never_stored "trail/route" (by decide)).2.2
      (.ok ⟨200, "x"⟩) 0 (.obj .nil) "\x7b\x7d" rfl).1⟩

/-- C9: a call of the wrapped fetch never removes entries — every
pre-existing entry survives the call, every key other than the call's
own computed key is untouched, and the new cache is either unchanged or
differs by a single insert/overwrite at the call's own key; removal
happens only in the `optimizeMemory` sweep. -/
theorem fetch_frame_no_removal (cache : Cache)
    (transport : Except TransportError Response) (now : Int) (url : String)
    (options : JsonValue) :
    (∀ k e, cacheGet cache k = some e →
      ∃ e2, cacheGet (fetchWithCache cache transport now url options).cache k =
        some e2) ∧
    (∀ k, (∀ s, serializeVal options = some s → k ≠ cacheKey url s) →
      cacheGet (fetchWithCache cache transport now url options).cache k =
        cacheGet cache k) ∧
    ((fetchWithCache cache transport now url options).cache = cache ∨
      ∃ s entry, serializeVal options = some s ∧
        (fetchWithCache cache transport now url options).cache =
          cacheSet cache (cacheKey url s) entry) := by
  refine ⟨?_, ?_, fetchWithCache_cache_shape cache transport now url options⟩
  · intro k e hget
    rcases fetchWithCache_cache_shape cache transport now url options with
      hsame | ⟨s, entry, hser, hset⟩
    · exact ⟨e, by rw [hsame, hget]⟩
    · rw [hset, cacheGet_cacheSet]
      by_cases hk : cacheKey url s = k
      · exact ⟨entry, by simp [hk]⟩
      · exact ⟨e, by simp [hk, hget]⟩
  · intro k hk
    rcases fetchWithCache_cache_shape cache transport now url options with
      hsame | ⟨s, entry, hser, hset⟩
    · rw [hsame]
    · rw [hset, cacheGet_cacheSet]
      have hne : cacheKey url s ≠ k := fun he => hk s hser he.symm
      simp [hne]

theorem fetch_frame_no_removal_witness :
    cacheGet (fetchWithCache [("other_key", ⟨⟨200, "o"⟩, 0, 100⟩)]
        (.ok ⟨200, "live"⟩) 0 "a.json" (.obj .nil)).cache "other_key" =
      some ⟨⟨200, "o"⟩, 0, 100⟩ :=
  ((fetch_frame_no_removal [("other_key", ⟨⟨200, "o"⟩, 0, 100⟩)]
      (.ok ⟨200, "live"⟩) 0 "a.json" (.obj .nil)).2.1 "other_key" (by
        intro s hs
        have h2 : some s = some "\x7b\x7d" := hs.symm.trans rfl
        injection h2 with h3
        subst h3
        decide)).trans (by decide)

/-- C10: cacheability is bare substring containment of one of the marker
strings, not extension or suffix matching — `shouldCache` is true
exactly when some marker occurs anywhere in the identifier, so `.json`
inside a query string, `api` inside a longer word like `rapid`, or
`.js` inside a `.jsx` name all classify as cacheable. -/
theorem shouldCache_substring_containment :
    (∀ url, shouldCache url = true ↔
      ∃ m, m ∈ cacheMarkers ∧ containsStr url m = true) ∧
    shouldCache "export?fmt=.json&v=2" = true ∧
    shouldCache "rapid-transit" = true ∧
    shouldCache "notes.jsx" = true := by
  refine ⟨fun url => ?_, by decide, by decide, by decide⟩
  simp only [shouldCache, cacheMarkers, cacheableExtensions,
    List.any_eq_true, Bool.or_eq_true, List.mem_append, List.mem_cons,
    List.not_mem_nil, or_false]
  constructor
  · rintro ((⟨m, hm, hc⟩ | hw) | ha)
    · exact ⟨m, Or.inl hm, hc⟩
    · exact ⟨"weather", Or.inr (Or.inl rfl), hw⟩
    · exact ⟨"api", Or.inr (Or.inr rfl), ha⟩
  · rintro ⟨m, hm | hw | ha, hc⟩
    · exact Or.inl (Or.inl ⟨m, hm, hc⟩)
    · subst hw; exact Or.inl (Or.inr hc)
    · subst ha; exact Or.inr hc

theorem shouldCache_substring_containment_witness :
    shouldCache "rapid" = true :=
  (shouldCache_substring_containment.1 "rapid").mpr
    ⟨"api", by decide, by decide⟩

end PerfOpt
